import Mathlib

/-!
Verification of the donut-cli renderer (src/donut.c).

The C program is a single `main` plus `setColorPalette`.  The per-sample
z-buffer test, the glyph ramp, the frame-emission loop, the palette
resolution, the speed handling and the main-loop exit paths are embedded
below, each definition carrying the line numbers of the C code it
translates.  Floating-point quantities along the sampling pipeline are
modelled by exact numbers: rationals where only arithmetic is involved and
real numbers where the trigonometric sample values matter.
-/

namespace Donut

/-- The 12-character glyph ramp `".,-~:;=!*#$@"` (src/donut.c, line 203). -/
def glyphRamp : List Char := ['.', ',', '-', '~', ':', ';', '=', '!', '*', '#', '$', '@']

/-- Ramp index computed by the conditional `N > 0 ? N : 0` (line 203). -/
def rampIndex (N : Int) : Nat := if 0 < N then N.toNat else 0

/-- Character written to the framebuffer: the ramp at `rampIndex N`.  An index
past the literal's 12 characters would read the terminating NUL byte in C;
that byte is modelled by the default `Char.ofNat 0`. -/
def rampChar (N : Int) : Char := glyphRamp.getD (rampIndex N) (Char.ofNat 0)

/-- One torus-surface sample as it reaches the z-buffer test (lines 186-207):
the projected integer screen coordinates `x`, `y`, the inverse depth `D` and
the integer luminance `N` computed for it. -/
structure Sample where
  x : Int
  y : Int
  D : ℚ
  N : Int
deriving DecidableEq

/-- The frame buffer `b[1760]` and depth buffer `z[1760]` (line 182), modelled
as functions on the integer offsets the code computes. -/
structure Buffers where
  z : Int → ℚ
  b : Int → Char

/-- Buffer state after `memset(b, 32, 1760)` and `memset(z, 0, sizeof z)`
(lines 183-184): every cell blank, every depth zero. -/
def initBuffers : Buffers := { z := fun _ => 0, b := fun _ => ' ' }

/-- The combined offset `o = x + 80 * y` (line 195). -/
def offs (s : Sample) : Int := s.x + 80 * s.y

/-- The coordinate guard `22 > y && y > 0 && x > 0 && 80 > x` (line 200). -/
def inRange (s : Sample) : Bool :=
  decide (s.y < 22) && decide (0 < s.y) && decide (0 < s.x) && decide (s.x < 80)

/-- The z-buffer test and write for one sample (lines 200-206): when the
coordinate guard holds and `D > z[o]`, store the depth and the ramp glyph at
offset `o`; otherwise leave both buffers untouched. -/
def stepSample (zb : Buffers) (s : Sample) : Buffers :=
  if inRange s && decide (zb.z (offs s) < s.D) then
    { z := Function.update zb.z (offs s) s.D
      b := Function.update zb.b (offs s) (rampChar s.N) }
  else zb

/-- The whole per-frame sampling pass (lines 186-208): fold the z-buffer step
over the samples in loop order, starting from cleared buffers. -/
def render (l : List Sample) : Buffers := l.foldl stepSample initBuffers

/-- Specification-side depth: the running maximum of the depths of the samples
that pass the guard and hit offset `o`, starting from the cleared value 0. -/
def depthSpec (l : List Sample) (o : Int) : ℚ :=
  l.foldl (fun acc s => if inRange s && decide (offs s = o) then max acc s.D else acc) 0

/-! Real-valued per-sample arithmetic (lines 188-198).  The C locals are
`c = sin i`, `d = cos j`, `e = sin A`, `f = sin j`, `g = cos A`, `h = d + 2`,
`l = cos i`, `m = cos B`, `n = sin B`; the float expressions are modelled
exactly over the reals. -/

/-- The perspective denominator `c * h * e + f * g + 5` (line 190). -/
noncomputable def denomR (A i j : ℝ) : ℝ :=
  Real.sin i * (Real.cos j + 2) * Real.sin A + Real.sin j * Real.cos A + 5

/-- The inverse depth `D = 1 / (c * h * e + f * g + 5)` (line 190). -/
noncomputable def depthR (A i j : ℝ) : ℝ := 1 / denomR A i j

/-- The luminance expression `(f * e - c * d * g) * m - c * d * e - f * g - l * d * n`
(line 198), before the `8 *` scaling and the cast to `int`. -/
noncomputable def lumR (A B i j : ℝ) : ℝ :=
  (Real.sin j * Real.sin A - Real.sin i * Real.cos j * Real.cos A) * Real.cos B
    - Real.sin i * Real.cos j * Real.sin A - Real.sin j * Real.cos A
    - Real.cos i * Real.cos j * Real.sin B

/-- C's float-to-int conversion: truncation toward zero. -/
noncomputable def truncToInt (r : ℝ) : ℤ := if 0 ≤ r then ⌊r⌋ else ⌈r⌉

/-- The luminance `int N = 8 * ((f * e - c * d * g) * m - c * d * e - f * g - l * d * n)`
(line 198). -/
noncomputable def lumN (A B i j : ℝ) : ℤ := truncToInt (8 * lumR A B i j)

/-- Result of `setColorPalette` (lines 55-104): the three palette entries
written through the out-parameter and whether the warning of lines 98-101 was
printed to stderr. -/
structure PaletteResult where
  low : String
  mid : String
  high : String
  warned : Bool
deriving DecidableEq

/-- `setColorPalette` (lines 55-104), transcribed branch by branch. -/
def setColorPalette (colorName : String) : PaletteResult :=
  if colorName = "rot" ∨ colorName = "red" then
    ⟨"\x1b[38;2;100;0;0m", "\x1b[38;2;180;0;0m", "\x1b[38;2;255;100;100m", false⟩
  else if colorName = "blau" ∨ colorName = "blue" then
    ⟨"\x1b[38;2;0;0;100m", "\x1b[38;2;0;0;180m", "\x1b[38;2;100;100;255m", false⟩
  else if colorName = "cyan" then
    ⟨"\x1b[38;2;0;100;100m", "\x1b[38;2;0;180;180m", "\x1b[38;2;100;255;255m", false⟩
  else if colorName = "magenta" then
    ⟨"\x1b[38;2;100;0;100m", "\x1b[38;2;180;0;180m", "\x1b[38;2;255;100;255m", false⟩
  else if colorName = "gelb" ∨ colorName = "yellow" then
    ⟨"\x1b[38;2;100;100;0m", "\x1b[38;2;180;180;0m", "\x1b[38;2;255;255;100m", false⟩
  else if colorName = "weiss" ∨ colorName = "white" then
    ⟨"\x1b[38;2;100;100;100m", "\x1b[38;2;180;180;180m", "\x1b[38;2;255;255;255m", false⟩
  else
    ⟨"\x1b[38;2;0;100;0m", "\x1b[38;2;0;180;0m", "\x1b[38;2;100;255;100m",
      !(colorName = "gruen" || colorName = "green")⟩

/-- The reset sequence printed after every emitted character (line 238). -/
def resetCode : String := "\x1b[0m"

/-- Model of `strchr(lit, ch) != NULL` for a string literal: membership among
the literal's characters or equality with its terminating NUL byte. -/
def strchrHit (lit : List Char) (ch : Char) : Bool := lit.contains ch || ch = Char.ofNat 0

/-- The color chosen for one character (lines 222-234): three fixed glyph
subsets select the palette tiers; anything else gets the empty code. -/
def colorCodeFor (pal : PaletteResult) (ch : Char) : String :=
  if strchrHit ['.', ',', '-'] ch then pal.low
  else if strchrHit ['~', ':', ';', '='] ch then pal.mid
  else if strchrHit ['!', '*', '#', '$', '@'] ch then pal.high
  else ""

/-- One iteration of the emission loop (lines 212-240) at index `k`: a newline
when `k % 80 == 0`, otherwise the color code, the cell's character (a blank
beyond index 1759) and the reset sequence. -/
def emitPos (pal : PaletteResult) (b : Int → Char) (k : Nat) : String :=
  if k % 80 = 0 then "\n"
  else
    colorCodeFor pal (if k < 1760 then b (k : Int) else ' ')
      ++ String.mk [if k < 1760 then b (k : Int) else ' '] ++ resetCode

/-- The whole emission loop `for (int k = 0; 1761 > k; k++)` (line 213). -/
def emitFrame (pal : PaletteResult) (b : Int → Char) : String :=
  String.join ((List.range 1761).map (emitPos pal b))

/-- `long baseSleep = 33333;` (line 111). -/
def baseSleep : Int := 33333

/-- Truncation toward zero of a rational, as the C cast to an integer type
performs on a float value. -/
def ratTrunc (q : ℚ) : Int := if 0 ≤ q then ⌊q⌋ else ⌈q⌉

/-- The value passed to `usleep`: `(useconds_t)(baseSleep / speedFactor)`
(line 249), the float quotient modelled exactly over ℚ. -/
def usleepArg (speedFactor : ℚ) : Int := ratTrunc ((baseSleep : ℚ) / speedFactor)

/-- An IEEE-style float as far as the speed-factor handling observes it:
either a finite value (modelled exactly) or NaN, as `strtof` can return
(line 133). -/
inductive FloatVal where
  | finite (q : ℚ)
  | nan
deriving DecidableEq

/-- IEEE comparison `v <= 0`: false whenever `v` is NaN. -/
def fleZero : FloatVal → Bool
  | .nan => false
  | .finite q => decide (q ≤ 0)

/-- The validation `*endptr != '\0' || speedFactor <= 0` (line 135);
`endConsumed` says `strtof` consumed the whole argument string. -/
def speedInvalid (endConsumed : Bool) (v : FloatVal) : Bool := !endConsumed || fleZero v

/-- Lines 133-139: the speed factor retained after validation — the fallback
1.0 when the check fires, the parsed value otherwise. -/
def finalSpeed (endConsumed : Bool) (v : FloatVal) : FloatVal :=
  if speedInvalid endConsumed v then .finite 1 else v

/-- The float quotient `baseSleep / speedFactor` (line 249) under IEEE
semantics: NaN propagates through division. -/
def sleepQuot : FloatVal → FloatVal
  | .nan => .nan
  | .finite q => .finite ((baseSleep : ℚ) / q)

/-- The accumulating rotation angles `A` and `B` (line 182), float state
modelled exactly. -/
structure DriverState where
  A : ℚ
  B : ℚ
deriving DecidableEq

/-- End of one loop iteration (lines 244-249): `A += 0.04; B += 0.02;` then
`usleep((useconds_t)(baseSleep / speedFactor))`.  Returns the new state and
the microsecond count handed to `usleep`. -/
def frameAdvance (st : DriverState) (speedFactor : ℚ) : DriverState × Int :=
  ({ A := st.A + 4/100, B := st.B + 2/100 }, usleepArg speedFactor)

/-- Linux value of `EAGAIN`. -/
def EAGAIN : Int := 11

/-- Linux value of `EWOULDBLOCK` (equal to `EAGAIN` on Linux). -/
def EWOULDBLOCK : Int := 11

/-- What one non-blocking `read` of a byte produced (lines 168-180):
one byte, zero bytes, or -1 with an errno value. -/
inductive InputEvent where
  | byte (c : Char)
  | noData
  | failed (errno : Int)
deriving DecidableEq

/-- The quit-byte test `input_char == 'q' || input_char == 'Q' || input_char == 27`
(line 171). -/
def isQuitByte (c : Char) : Bool := c = 'q' || c = 'Q' || c.toNat = 27

/-- Whether the iteration sets `quit = 1` (lines 169-181): a quit byte, or a
failed read whose errno is neither `EAGAIN` nor `EWOULDBLOCK`. -/
def loopQuits : InputEvent → Bool
  | .byte c => isQuitByte c
  | .noData => false
  | .failed e => decide (e ≠ EAGAIN) && decide (e ≠ EWOULDBLOCK)

/-- The statement reached once the `while` loop is left: `return 0;`
(line 253). -/
def mainLoopExitStatus : Int := 0

/-- The `-h`/`--help` path: `return 0;` (line 127). -/
def helpExitStatus : Int := 0

/-- Exit status of the process as a function of the loop-ending event: the
loop keeps running (`none`) unless the event quits, in which case `main`
falls through to `return 0`. -/
def exitStatusOf (ev : InputEvent) : Option Int :=
  if loopQuits ev then some mainLoopExitStatus else none

/-! Helper lemmas about the z-buffer fold. -/

theorem stepSample_z (zb : Buffers) (s : Sample) (o : Int) :
    (stepSample zb s).z o =
      if inRange s && decide (offs s = o) then max (zb.z o) s.D else zb.z o := by
  unfold stepSample
  by_cases hg : inRange s
  · by_cases ho : offs s = o
    · subst ho
      by_cases hz : zb.z (offs s) < s.D
      · simp [hg, hz, Function.update_same, max_eq_right hz.le]
      · simp [hg, hz, max_eq_left (not_lt.mp hz)]
    · by_cases hz : zb.z (offs s) < s.D
      · simp [hg, hz, ho, Function.update_noteq (Ne.symm ho)]
      · simp [hg, hz, ho]
  · simp [hg]

theorem foldl_stepSample_z (l : List Sample) (zb : Buffers) (o : Int) :
    (l.foldl stepSample zb).z o =
      l.foldl (fun acc s => if inRange s && decide (offs s = o) then max acc s.D else acc)
        (zb.z o) := by
  induction l generalizing zb with
  | nil => rfl
  | cons s t ih =>
      simp only [List.foldl_cons, ih, stepSample_z]

theorem render_z (l : List Sample) (o : Int) : (render l).z o = depthSpec l o := by
  unfold render depthSpec
  rw [foldl_stepSample_z l initBuffers o]
  rfl

theorem depthSpec_perm {l t : List Sample} (h : l.Perm t) (o : Int) :
    depthSpec l o = depthSpec t o := by
  unfold depthSpec
  refine h.foldl_eq' (fun s _hs u _hu acc => ?_) 0
  by_cases hs : inRange s && decide (offs s = o) <;>
    by_cases hu : inRange u && decide (offs u = o) <;>
      simp [hs, hu, max_assoc, max_comm s.D u.D]

theorem stepSample_of_guard_false {zb : Buffers} {s : Sample}
    (h : (inRange s && decide (zb.z (offs s) < s.D)) = false) : stepSample zb s = zb := by
  unfold stepSample
  simp [h]

theorem stepSample_z_of_guard_true {zb : Buffers} {s : Sample}
    (h : (inRange s && decide (zb.z (offs s) < s.D)) = true) :
    (stepSample zb s).z = Function.update zb.z (offs s) s.D := by
  unfold stepSample
  simp [h]

theorem stepSample_b_of_guard_true {zb : Buffers} {s : Sample}
    (h : (inRange s && decide (zb.z (offs s) < s.D)) = true) :
    (stepSample zb s).b = Function.update zb.b (offs s) (rampChar s.N) := by
  unfold stepSample
  simp [h]

/-- After folding the z-buffer step, each cell is either untouched or holds the
depth and ramp glyph of one guard-passing sample that hit it. -/
theorem foldl_stepSample_cases (l : List Sample) (zb : Buffers) (o : Int) :
    ((l.foldl stepSample zb).z o = zb.z o ∧ (l.foldl stepSample zb).b o = zb.b o) ∨
      ∃ s ∈ l, (inRange s && decide (offs s = o)) = true ∧
        (l.foldl stepSample zb).z o = s.D ∧
        (l.foldl stepSample zb).b o = rampChar s.N := by
  induction l generalizing zb with
  | nil => exact Or.inl ⟨rfl, rfl⟩
  | cons s t ih =>
      simp only [List.foldl_cons]
      rcases ih (stepSample zb s) with ⟨hz, hb⟩ | ⟨u, hu, hrel, hz, hb⟩
      · rw [hz, hb]
        by_cases hg : (inRange s && decide (zb.z (offs s) < s.D)) = true
        · by_cases ho : offs s = o
          · subst ho
            refine Or.inr ⟨s, List.mem_cons_self s t, ?_, ?_, ?_⟩
            · simp [(Bool.and_eq_true _ _).mp hg |>.1]
            · rw [stepSample_z_of_guard_true hg, Function.update_same]
            · rw [stepSample_b_of_guard_true hg, Function.update_same]
          · refine Or.inl ⟨?_, ?_⟩
            · rw [stepSample_z_of_guard_true hg, Function.update_noteq (Ne.symm ho)]
            · rw [stepSample_b_of_guard_true hg, Function.update_noteq (Ne.symm ho)]
        · rw [stepSample_of_guard_false (Bool.eq_false_iff.mpr hg)]
          exact Or.inl ⟨rfl, rfl⟩
      · exact Or.inr ⟨u, List.mem_cons_of_mem s hu, hrel, hz, hb⟩

theorem foldl_maxif_lower (l : List Sample) (o : Int) (a : ℚ) :
    a ≤ l.foldl (fun acc s => if inRange s && decide (offs s = o) then max acc s.D else acc) a := by
  induction l generalizing a with
  | nil => exact le_refl a
  | cons s t ih =>
      rw [List.foldl_cons]
      refine le_trans ?_ (ih _)
      by_cases h : (inRange s && decide (offs s = o)) = true
      · rw [if_pos h]
        exact le_max_left a s.D
      · rw [if_neg h]

theorem foldl_maxif_upper (l : List Sample) (o : Int) :
    ∀ a : ℚ, (∀ s ∈ l, s.D ≤ 1) → a ≤ 1 →
      l.foldl (fun acc s => if inRange s && decide (offs s = o) then max acc s.D else acc) a
        ≤ 1 := by
  induction l with
  | nil => exact fun a _ ha => ha
  | cons s t ih =>
      intro a hl ha
      rw [List.foldl_cons]
      refine ih _ (fun u hu => hl u (List.mem_cons_of_mem s hu)) ?_
      by_cases h : (inRange s && decide (offs s = o)) = true
      · rw [if_pos h]
        exact max_le ha (hl s (List.mem_cons_self s t))
      · rw [if_neg h]
        exact ha

theorem rampChar_ne_blank (N : Int) : rampChar N ≠ ' ' := by
  unfold rampChar
  rcases Nat.lt_or_ge (rampIndex N) glyphRamp.length with h | h
  · rw [List.getD_eq_getElem _ _ h]
    have hall : ∀ c ∈ glyphRamp, c ≠ ' ' := by decide
    exact hall _ (List.getElem_mem h)
  · rw [List.getD_eq_default _ _ h]
    decide

/-! Analytic bounds on the per-sample quantities. -/

theorem denomR_bounds (A i j : ℝ) : 1 ≤ denomR A i j ∧ denomR A i j ≤ 9 := by
  have hsi₁ := Real.neg_one_le_sin i
  have hsi₂ := Real.sin_le_one i
  have hsA₁ := Real.neg_one_le_sin A
  have hsA₂ := Real.sin_le_one A
  have hsj₁ := Real.neg_one_le_sin j
  have hsj₂ := Real.sin_le_one j
  have hcA₁ := Real.neg_one_le_cos A
  have hcA₂ := Real.cos_le_one A
  have hcj₁ := Real.neg_one_le_cos j
  have hcj₂ := Real.cos_le_one j
  constructor <;>
    · unfold denomR
      nlinarith [mul_nonneg (sub_nonneg.mpr hsi₂) (sub_nonneg.mpr hsA₂),
        mul_nonneg (by linarith : (0:ℝ) ≤ 1 + Real.sin i)
          (by linarith : (0:ℝ) ≤ 1 + Real.sin A),
        mul_nonneg (sub_nonneg.mpr hsj₂) (sub_nonneg.mpr hcA₂),
        sq_nonneg (Real.sin j + Real.cos A), sq_nonneg (Real.sin j - Real.cos A),
        sq_nonneg (Real.sin i + Real.sin A), sq_nonneg (Real.sin i - Real.sin A)]

theorem depthR_pos_le_one (A i j : ℝ) : 0 < depthR A i j ∧ depthR A i j ≤ 1 := by
  obtain ⟨h1, _⟩ := denomR_bounds A i j
  have hpos : (0:ℝ) < denomR A i j := lt_of_lt_of_le one_pos h1
  refine ⟨div_pos one_pos hpos, ?_⟩
  rw [depthR, div_le_one hpos]
  exact h1

theorem lumR_sq_le_two (A B i j : ℝ) : lumR A B i j ^ 2 ≤ 2 := by
  have hB := Real.sin_sq_add_cos_sq B
  have hA := Real.sin_sq_add_cos_sq A
  have hi := Real.sin_sq_add_cos_sq i
  have hj := Real.sin_sq_add_cos_sq j
  set P : ℝ := Real.sin j * Real.sin A - Real.sin i * Real.cos j * Real.cos A with hP
  set Q : ℝ := Real.cos i * Real.cos j with hQ
  set R : ℝ := Real.sin i * Real.cos j * Real.sin A + Real.sin j * Real.cos A with hR
  have hPQR : P ^ 2 + Q ^ 2 + R ^ 2 = 1 := by
    rw [hP, hQ, hR]
    linear_combination
      ((Real.sin j) ^ 2 + (Real.sin i) ^ 2 * (Real.cos j) ^ 2) * hA
        + (Real.cos j) ^ 2 * hi + hj
  have hL : lumR A B i j = P * Real.cos B - Q * Real.sin B - R := by
    rw [hP, hQ, hR]; unfold lumR; ring
  rw [hL]
  nlinarith [sq_nonneg (P * Real.sin B + Q * Real.cos B),
    sq_nonneg (P * Real.cos B - Q * Real.sin B + R), sq_nonneg P, sq_nonneg Q, sq_nonneg R]

theorem lumR_lt (A B i j : ℝ) : 8 * lumR A B i j < 12 := by
  have h := lumR_sq_le_two A B i j
  nlinarith [sq_nonneg (lumR A B i j - 2)]

theorem rampIndex_lumN_le (A B i j : ℝ) : rampIndex (lumN A B i j) ≤ 11 := by
  unfold rampIndex
  by_cases h : 0 < lumN A B i j
  · rw [if_pos h]
    have hle : lumN A B i j ≤ 11 := by
      unfold lumN truncToInt
      by_cases hr : 0 ≤ 8 * lumR A B i j
      · rw [if_pos hr]
        have : ⌊8 * lumR A B i j⌋ < 12 := by
          rw [Int.floor_lt]
          exact_mod_cast lumR_lt A B i j
        omega
      · rw [if_neg hr]
        have : ⌈8 * lumR A B i j⌉ ≤ (0:ℤ) := by
          rw [Int.ceil_le]
          push_cast
          linarith [lt_of_not_le hr]
        omega
    omega
  · rw [if_neg h]
    omega

/-! Claim theorems. -/

/-- C2: the coordinate guard `22 > y && y > 0 && x > 0 && 80 > x` of line 200
is exactly `0 < x < 80 ∧ 0 < y < 22`; under that guard the combined offset
`o = x + 80*y` always lies within [0, 1760), so every buffer access is
in-bounds, and a sample failing the guard leaves both buffers unmodified. -/
theorem claim_C2 :
    (∀ s : Sample, inRange s = true ↔ (0 < s.x ∧ s.x < 80 ∧ 0 < s.y ∧ s.y < 22)) ∧
    (∀ s : Sample, inRange s = true → 0 ≤ offs s ∧ offs s < 1760) ∧
    (∀ (zb : Buffers) (s : Sample), inRange s = false → stepSample zb s = zb) := by
  refine ⟨?_, ?_, ?_⟩
  · intro s
    simp only [inRange, Bool.and_eq_true, decide_eq_true_eq]
    omega
  · intro s h
    simp only [inRange, Bool.and_eq_true, decide_eq_true_eq] at h
    unfold offs
    omega
  · intro zb s h
    apply stepSample_of_guard_false
    simp [h]

theorem claim_C2_witness :
    (0 ≤ offs (Sample.mk 79 21 0 0) ∧ offs (Sample.mk 79 21 0 0) < 1760) ∧
    stepSample initBuffers (Sample.mk 100 50 1 1) = initBuffers :=
  ⟨claim_C2.2.1 (Sample.mk 79 21 0 0) (by decide),
   claim_C2.2.2 initBuffers (Sample.mk 100 50 1 1) (by decide)⟩

/-- C3 (counterexample): a failed read with errno 5 (EIO), which is neither
EAGAIN nor EWOULDBLOCK, terminates the loop, but `main` then falls through to
`return 0` (line 253): the process exits with status 0, not with a non-zero
status distinct from success as the claim requires. -/
theorem claim_C3_counterexample :
    (5 : Int) ≠ EAGAIN ∧ (5 : Int) ≠ EWOULDBLOCK ∧
    loopQuits (.failed 5) = true ∧ exitStatusOf (.failed 5) = some 0 := by
  decide

/-- C3 (amended): 'q', 'Q' and ESC end the loop and the process exits with
status 0, and the help option exits with status 0, as claimed; a read failure whose
errno is neither EAGAIN nor EWOULDBLOCK also ends the loop, but through the
same fall-through `return 0`, so the process exits with status 0 there as
well rather than with a non-zero status. -/
theorem claim_C3 :
    (∀ c : Char, isQuitByte c = true → exitStatusOf (.byte c) = some 0) ∧
    helpExitStatus = 0 ∧
    (∀ e : Int, e ≠ EAGAIN → e ≠ EWOULDBLOCK → exitStatusOf (.failed e) = some 0) ∧
    exitStatusOf .noData = none ∧
    (∀ e : Int, e = EAGAIN ∨ e = EWOULDBLOCK → exitStatusOf (.failed e) = none) := by
  refine ⟨?_, rfl, ?_, rfl, ?_⟩
  · intro c h
    simp [exitStatusOf, loopQuits, h, mainLoopExitStatus]
  · intro e h1 h2
    simp [exitStatusOf, loopQuits, h1, h2, mainLoopExitStatus]
  · intro e h
    rcases h with h | h <;> subst h <;> decide

theorem claim_C3_witness :
    exitStatusOf (.byte 'q') = some 0 ∧ exitStatusOf (.failed 5) = some 0 ∧
    exitStatusOf (.failed 11) = none :=
  ⟨claim_C3.1 'q' (by decide), claim_C3.2.2.1 5 (by decide) (by decide),
   claim_C3.2.2.2.2 11 (Or.inl rfl)⟩

/-- C5 (counterexample): at speedFactor 2 the value handed to `usleep` is the
`useconds_t`-cast (truncated) quotient 16666, which is not exactly half of
the 33333-microsecond baseline (that would be 16666.5). -/
theorem claim_C5_counterexample :
    usleepArg 2 = 16666 ∧ (usleepArg 2 : ℚ) ≠ (baseSleep : ℚ) / 2 := by
  have h : usleepArg 2 = 16666 := by
    unfold usleepArg ratTrunc baseSleep
    rw [if_pos (by norm_num), Int.floor_eq_iff]
    norm_num
  refine ⟨h, ?_⟩
  rw [h]
  norm_num [baseSleep]

/-- C5 (amended): the per-frame sleep duration is the quotient
baseSleep / speedFactor truncated to a whole microsecond count by the
`useconds_t` cast: at speedFactor 2 it is 16666, half a microsecond short of
exactly half the 33333-microsecond baseline, and for every positive factor it
lies within one microsecond below the exact quotient. -/
theorem claim_C5 :
    usleepArg 2 = 16666 ∧
    (∀ s : ℚ, 0 < s → (usleepArg s : ℚ) ≤ (baseSleep : ℚ) / s ∧
      (baseSleep : ℚ) / s - 1 < (usleepArg s : ℚ)) := by
  refine ⟨?_, ?_⟩
  · unfold usleepArg ratTrunc baseSleep
    rw [if_pos (by norm_num), Int.floor_eq_iff]
    norm_num
  intro s hs
  have hq : (0:ℚ) ≤ (baseSleep : ℚ) / s := by
    apply div_nonneg _ hs.le
    norm_num [baseSleep]
  unfold usleepArg ratTrunc
  rw [if_pos hq]
  constructor
  · exact_mod_cast Int.floor_le ((baseSleep : ℚ) / s)
  · exact_mod_cast Int.sub_one_lt_floor ((baseSleep : ℚ) / s)

theorem claim_C5_witness :
    (usleepArg 3 : ℚ) ≤ (baseSleep : ℚ) / 3 ∧
      (baseSleep : ℚ) / 3 - 1 < (usleepArg 3 : ℚ) :=
  claim_C5.2 3 (by norm_num)

/-- C6: every non-quitting iteration adds exactly 0.04 to A and 0.02 to B
(both strictly increase), the updated angles are the same for every speed
factor, and the speed factor enters only the microsecond count handed to
`usleep`. -/
theorem claim_C6 : ∀ (st : DriverState) (s₁ s₂ : ℚ),
    (frameAdvance st s₁).1.A = st.A + 4/100 ∧
    (frameAdvance st s₁).1.B = st.B + 2/100 ∧
    st.A < (frameAdvance st s₁).1.A ∧
    st.B < (frameAdvance st s₁).1.B ∧
    (frameAdvance st s₁).1 = (frameAdvance st s₂).1 ∧
    (frameAdvance st s₁).2 = usleepArg s₁ := by
  intro st s₁ s₂
  refine ⟨rfl, rfl, ?_, ?_, rfl, rfl⟩
  · exact lt_add_of_pos_right st.A (by norm_num)
  · exact lt_add_of_pos_right st.B (by norm_num)

/-- C4: the glyph written on a depth-test success is the ramp at index
`N > 0 ? N : 0`: nonpositive luminance gives index 0, and for every choice of
the rotation angles A, B and the sampling angles i, j the luminance keeps the
index at or below 11, so the character stored is always one of the 12 ramp
glyphs. -/
theorem claim_C4 :
    (∀ N : Int, N ≤ 0 → rampIndex N = 0) ∧
    (∀ A B i j : ℝ, rampIndex (lumN A B i j) ≤ 11 ∧ rampChar (lumN A B i j) ∈ glyphRamp) := by
  constructor
  · intro N h
    unfold rampIndex
    rw [if_neg (by omega)]
  · intro A B i j
    refine ⟨rampIndex_lumN_le A B i j, ?_⟩
    unfold rampChar
    have hlt : rampIndex (lumN A B i j) < glyphRamp.length := by
      have := rampIndex_lumN_le A B i j
      simp only [glyphRamp, List.length_cons, List.length_nil]
      omega
    rw [List.getD_eq_getElem _ _ hlt]
    exact List.getElem_mem hlt

theorem claim_C4_witness : rampIndex (-3) = 0 :=
  claim_C4.1 (-3) (by decide)

/-- C8: `setColorPalette` maps the unrecognized name "fuchsia" to the three
green codes with the warning emitted (and only warns, it does not abort),
while each recognized name — both the English and the German variant of each
color — receives its own three escalating-intensity codes with no warning. -/
theorem claim_C8 :
    setColorPalette "fuchsia" =
      ⟨"\x1b[38;2;0;100;0m", "\x1b[38;2;0;180;0m", "\x1b[38;2;100;255;100m", true⟩ ∧
    setColorPalette "gruen" =
      ⟨"\x1b[38;2;0;100;0m", "\x1b[38;2;0;180;0m", "\x1b[38;2;100;255;100m", false⟩ ∧
    setColorPalette "green" =
      ⟨"\x1b[38;2;0;100;0m", "\x1b[38;2;0;180;0m", "\x1b[38;2;100;255;100m", false⟩ ∧
    setColorPalette "rot" =
      ⟨"\x1b[38;2;100;0;0m", "\x1b[38;2;180;0;0m", "\x1b[38;2;255;100;100m", false⟩ ∧
    setColorPalette "red" =
      ⟨"\x1b[38;2;100;0;0m", "\x1b[38;2;180;0;0m", "\x1b[38;2;255;100;100m", false⟩ ∧
    setColorPalette "blau" =
      ⟨"\x1b[38;2;0;0;100m", "\x1b[38;2;0;0;180m", "\x1b[38;2;100;100;255m", false⟩ ∧
    setColorPalette "blue" =
      ⟨"\x1b[38;2;0;0;100m", "\x1b[38;2;0;0;180m", "\x1b[38;2;100;100;255m", false⟩ ∧
    setColorPalette "cyan" =
      ⟨"\x1b[38;2;0;100;100m", "\x1b[38;2;0;180;180m", "\x1b[38;2;100;255;255m", false⟩ ∧
    setColorPalette "magenta" =
      ⟨"\x1b[38;2;100;0;100m", "\x1b[38;2;180;0;180m", "\x1b[38;2;255;100;255m", false⟩ ∧
    setColorPalette "gelb" =
      ⟨"\x1b[38;2;100;100;0m", "\x1b[38;2;180;180;0m", "\x1b[38;2;255;255;100m", false⟩ ∧
    setColorPalette "yellow" =
      ⟨"\x1b[38;2;100;100;0m", "\x1b[38;2;180;180;0m", "\x1b[38;2;255;255;100m", false⟩ ∧
    setColorPalette "weiss" =
      ⟨"\x1b[38;2;100;100;100m", "\x1b[38;2;180;180;180m", "\x1b[38;2;255;255;255m", false⟩ ∧
    setColorPalette "white" =
      ⟨"\x1b[38;2;100;100;100m", "\x1b[38;2;180;180;180m", "\x1b[38;2;255;255;255m", false⟩ := by
  decide

/-- C10: when `strtof` consumes the whole second argument and returns NaN,
the validation `*endptr != '\0' || speedFactor <= 0` is false — an IEEE NaN
fails the `<= 0` comparison — so no warning fires, the 1.0 fallback is not
applied, the retained speed factor is still NaN, and the sleep quotient
baseSleep / speedFactor computed from it is NaN as well. -/
theorem claim_C10 :
    speedInvalid true FloatVal.nan = false ∧
    finalSpeed true FloatVal.nan = FloatVal.nan ∧
    sleepQuot (finalSpeed true FloatVal.nan) = FloatVal.nan := by
  refine ⟨rfl, ?_, ?_⟩ <;> rfl

/-- C9: the perspective denominator `c*h*e + f*g + 5` always lies in [1, 9],
so the inverse depth `D` is well defined (no division by zero) and lies in
(0, 1]; consequently, for every sample list whose depths lie in (0, 1] — as
the real samples' do — every stored depth-buffer value is in [0, 1] and a
cell's depth is positive exactly when the cell holds a non-blank glyph. -/
theorem claim_C9 :
    (∀ A i j : ℝ, 1 ≤ denomR A i j ∧ denomR A i j ≤ 9 ∧
      0 < depthR A i j ∧ depthR A i j ≤ 1) ∧
    (∀ l : List Sample, (∀ s ∈ l, 0 < s.D ∧ s.D ≤ 1) → ∀ o : Int,
      0 ≤ (render l).z o ∧ (render l).z o ≤ 1 ∧
        (0 < (render l).z o ↔ (render l).b o ≠ ' ')) := by
  constructor
  · intro A i j
    obtain ⟨h1, h2⟩ := denomR_bounds A i j
    obtain ⟨h3, h4⟩ := depthR_pos_le_one A i j
    exact ⟨h1, h2, h3, h4⟩
  · intro l hl o
    have hrender : render l = l.foldl stepSample initBuffers := rfl
    refine ⟨?_, ?_, ?_, ?_⟩
    · rw [render_z]
      exact foldl_maxif_lower l o 0
    · rw [render_z]
      exact foldl_maxif_upper l o 0 (fun s hs => (hl s hs).2) (by norm_num)
    · intro hz
      rcases foldl_stepSample_cases l initBuffers o with ⟨hzo, _⟩ | ⟨s, _, _, _, hbo⟩
      · rw [hrender, hzo] at hz
        exact absurd hz (by norm_num [initBuffers])
      · rw [hrender, hbo]
        exact rampChar_ne_blank s.N
    · intro hb
      rcases foldl_stepSample_cases l initBuffers o with ⟨_, hbo⟩ | ⟨s, hs, _, hzo, _⟩
      · rw [hrender, hbo] at hb
        exact absurd rfl hb
      · rw [hrender, hzo]
        exact (hl s hs).1

theorem claim_C9_witness :
    0 ≤ (render [Sample.mk 3 2 1 2]).z 163 ∧
    (render [Sample.mk 3 2 1 2]).z 163 ≤ 1 ∧
    (0 < (render [Sample.mk 3 2 1 2]).z 163 ↔
      (render [Sample.mk 3 2 1 2]).b 163 ≠ ' ') :=
  claim_C9.2 [Sample.mk 3 2 1 2] (by decide) 163

/-- C7 (counterexample): position 80 is one of the 1761 logical positions and
lies inside the 1760 buffer cells, and its cell holds '@', yet the emission
loop prints only the forced line break there and no colorized glyph — so
"emits the colorized glyph at every logical position" fails at the positions
divisible by 80, whose cells are never printed. -/
theorem claim_C7_counterexample :
    (fun _ : Int => '@') (80 : Nat) = '@' ∧
    emitPos (setColorPalette "gruen") (fun _ => '@') 80 = "\n" ∧
    ('@' ∈ "\n".toList → False) := by
  refine ⟨rfl, rfl, by decide⟩

/-- C7 (amended): the emission loop visits the 1761 logical positions 0..1760;
at every position divisible by 80 it emits the forced line break instead of a
glyph (those 23 positions, including the cells at offsets 0, 80, ..., 1680,
print no glyph), and at every other position it emits the colorized glyph:
the palette entry selected by the glyph's intensity subset ('.,-' low, '~:;='
medium, '!*#$@' high), the glyph, and the color reset; blank cells get the
empty color code. -/
theorem claim_C7 : ∀ (pal : PaletteResult) (b : Int → Char),
    emitFrame pal b = String.join ((List.range 1761).map (emitPos pal b)) ∧
    (∀ k : Nat, k % 80 = 0 → emitPos pal b k = "\n") ∧
    (∀ k : Nat, k % 80 ≠ 0 → k < 1760 →
      emitPos pal b k = colorCodeFor pal (b (k : Int)) ++ String.mk [b (k : Int)]
        ++ resetCode) ∧
    (colorCodeFor pal '.' = pal.low ∧ colorCodeFor pal ',' = pal.low ∧
      colorCodeFor pal '-' = pal.low) ∧
    (colorCodeFor pal '~' = pal.mid ∧ colorCodeFor pal ':' = pal.mid ∧
      colorCodeFor pal ';' = pal.mid ∧ colorCodeFor pal '=' = pal.mid) ∧
    (colorCodeFor pal '!' = pal.high ∧ colorCodeFor pal '*' = pal.high ∧
      colorCodeFor pal '#' = pal.high ∧ colorCodeFor pal '$' = pal.high ∧
      colorCodeFor pal '@' = pal.high) ∧
    colorCodeFor pal ' ' = "" := by
  intro pal b
  refine ⟨rfl, ?_, ?_, ⟨rfl, rfl, rfl⟩, ⟨rfl, rfl, rfl, rfl⟩, ⟨rfl, rfl, rfl, rfl, rfl⟩, rfl⟩
  · intro k hk
    unfold emitPos
    rw [if_pos hk]
  · intro k hk hlt
    unfold emitPos
    rw [if_neg hk, if_pos hlt]

theorem claim_C7_witness :
    emitPos (setColorPalette "green") (fun _ => '@') 160 = "\n" ∧
    emitPos (setColorPalette "green") (fun _ => '@') 1 =
      colorCodeFor (setColorPalette "green") '@' ++ String.mk ['@'] ++ resetCode :=
  ⟨(claim_C7 (setColorPalette "green") (fun _ => '@')).2.1 160 (by decide),
   (claim_C7 (setColorPalette "green") (fun _ => '@')).2.2.1 1 (by decide) (by decide)⟩

/-- C1 (counterexample): two guard-passing samples that hit the same cell at
exactly equal depth but with different luminance refute the claimed
order-independence of the final frame buffer: the strict depth comparison
`D > z[o]` keeps the first-evaluated sample's glyph, so swapping the
evaluation order changes the glyph stored at the shared cell.  (Such exact
ties arise in the program: at A = 0 the depth `D = 1/(sin j + 5)` does not
depend on the inner angle i, so all samples of one inner loop share one
depth.) -/
theorem claim_C1_counterexample :
    (List.Perm [Sample.mk 1 1 1 0, Sample.mk 1 1 1 5]
      [Sample.mk 1 1 1 5, Sample.mk 1 1 1 0]) ∧
    (render [Sample.mk 1 1 1 0, Sample.mk 1 1 1 5]).b 81 ≠
      (render [Sample.mk 1 1 1 5, Sample.mk 1 1 1 0]).b 81 := by
  constructor
  · exact List.Perm.swap (Sample.mk 1 1 1 5) (Sample.mk 1 1 1 0) []
  · decide

/-- C1 (amended): for every sample list and every cell, the final depth-buffer
value is the running maximum of 0 and the depths of the guard-passing samples
that projected to that cell — hence the depth buffer is independent of the
evaluation order — and every non-blank cell holds the ramp glyph of a sample
whose depth equals that maximum.  Order-independence of the frame buffer
itself fails at equal-depth ties (see the counterexample), where the
first-evaluated of the tied samples supplies the glyph. -/
theorem claim_C1 :
    (∀ (l : List Sample) (o : Int), (render l).z o = depthSpec l o) ∧
    (∀ (l t : List Sample), l.Perm t → ∀ o : Int, (render l).z o = (render t).z o) ∧
    (∀ (l : List Sample) (o : Int), (render l).b o ≠ ' ' →
      ∃ s ∈ l, (inRange s && decide (offs s = o)) = true ∧
        s.D = (render l).z o ∧ (render l).b o = rampChar s.N) := by
  refine ⟨render_z, ?_, ?_⟩
  · intro l t h o
    rw [render_z, render_z]
    exact depthSpec_perm h o
  · intro l o hb
    have hrender : render l = l.foldl stepSample initBuffers := rfl
    rcases foldl_stepSample_cases l initBuffers o with ⟨_, hbo⟩ | ⟨s, hs, hrel, hzo, hbo⟩
    · rw [hrender, hbo] at hb
      exact absurd rfl hb
    · rw [hrender] at *
      exact ⟨s, hs, hrel, hzo.symm, hbo⟩

theorem claim_C1_witness :
    (render [Sample.mk 2 1 1 1, Sample.mk 2 1 2 9]).z 82 =
      (render [Sample.mk 2 1 2 9, Sample.mk 2 1 1 1]).z 82 ∧
    (∃ s ∈ [Sample.mk 2 1 1 1, Sample.mk 2 1 2 9],
      (inRange s && decide (offs s = 82)) = true ∧
        s.D = (render [Sample.mk 2 1 1 1, Sample.mk 2 1 2 9]).z 82 ∧
        (render [Sample.mk 2 1 1 1, Sample.mk 2 1 2 9]).b 82 = rampChar s.N) :=
  ⟨claim_C1.2.1 [Sample.mk 2 1 1 1, Sample.mk 2 1 2 9]
      [Sample.mk 2 1 2 9, Sample.mk 2 1 1 1] (by decide) 82,
   claim_C1.2.2 [Sample.mk 2 1 1 1, Sample.mk 2 1 2 9] 82 (by decide)⟩

end Donut
